import Mathlib

/-!
Verification of the two scripted modules of this repository:
`Modules/Scripted/DMRIInstall/DMRIInstall.py` and
`Modules/Scripted/DataProbe/DataProbeLib/SliceViewAnnotations.py`.

Python strings are modelled as `String` (a sequence of characters), Python
slicing with explicit helpers that reproduce Python's negative-index
semantics, Python dicts with insertion order (`collections.OrderedDict`,
and the corner-text dicts) as association lists, and the host application
(Qt widgets, the MRML scene, the DICOM database) as explicit inputs.
Methods that mutate `self` become functions from state to state; calls
into the host that only produce side effects become explicit effect lists.
Python exceptions (`int()` on a non-numeric string) are modelled with
`Option`.
-/

namespace Slicer

/-! ## Python string-slicing helpers

`pySlice s a b` is Python's `s[a:b]` for non-negative `a`, `b`.
`pyTakeTo s b` is `s[:b]` and `pyDropFrom s a` is `s[a:]` for an arbitrary
integer index, with Python's clamping and negative-index rules:
`s[:b]` with `b < 0` is the first `len(s) + b` characters (none when
`-b` exceeds the length), and `s[a:]` with `a < 0` is the last `-a`
characters (all of `s` when `-a` exceeds the length). -/

def pySlice (s : String) (a b : Nat) : String := ⟨(s.data.take b).drop a⟩

def pyTakeTo (s : String) (b : Int) : String :=
  if 0 ≤ b then ⟨s.data.take b.toNat⟩
  else ⟨s.data.take (s.data.length - (-b).toNat)⟩

def pyDropFrom (s : String) (a : Int) : String :=
  if 0 ≤ a then ⟨s.data.drop a.toNat⟩
  else ⟨s.data.drop (s.data.length - (-a).toNat)⟩

/-- Python's `s.partition(sep)[0]` for `sep = " "`: the part of `s` before
its first space (all of `s` when it has no space). -/
def partitionBefore (s : String) : String := (s.splitOn " ").headD s

/-! ## DMRIInstall

`DMRIInstall.py` defines a widget with one Apply button.  The calls the
widget makes into the host (text-browser HTML, button enabling, the
extensions-manager model, the restart prompt) are modelled as an effect
list in the order the code performs them.  `slicer.i18n.tr` is the
identity on the source language and is dropped. -/

inductive UIEffect where
  /-- Effect `self.textBox.setHtml(html)`. -/
  | setHtml (html : String)
  /-- Effect `self.applyButton.enabled = enabled`. -/
  | setApplyEnabled (enabled : Bool)
  /-- Effect `emm.interactive = interactive`. -/
  | setInteractive (interactive : Bool)
  /-- Effect `emm.updateExtensionsMetadataFromServer(a, b)`. -/
  | updateExtensionsMetadataFromServer (a b : Bool)
  /-- Effect `emm.downloadAndInstallExtensionByName(name, installDeps, wait)`. -/
  | downloadAndInstallExtensionByName (name : String) (installDeps wait : Bool)
  /-- Effect `slicer.app.confirmRestart(msg)`. -/
  | confirmRestart (msg : String)
deriving DecidableEq

/-- Source `DMRIInstall.errorText` up to `Slicer version: ` (the class attribute is
`textwrap.dedent` of the triple-quoted literal, whose common indent of two
spaces is removed and whose final whitespace-only line is normalised). -/
def errorTextPre : String :=
  "\n<h5 style=\"color:red\">The SlicerDMRI extension is currently unavailable.</h5><br>\nPlease try a manual installation via the Extensions Manager,\nand contact the Slicer forum at:<br><br>\n\n&nbsp;&nbsp;<a href=\"https://discourse.slicer.org\">https://discourse.slicer.org</a><br><br>\n\nWith the following information:<br>\nSlicer version: "

/-- The part of `DMRIInstall.errorText` between `{builddate}` and `{revision}`. -/
def errorTextMid1 : String := "<br>\nSlicer revision: "

/-- The part of `DMRIInstall.errorText` between `{revision}` and `{platform}`. -/
def errorTextMid2 : String := "<br>\nPlatform: "

/-- The part of `DMRIInstall.errorText` after `{platform}`. -/
def errorTextPost : String := "\n"

/-- Source `DMRIInstall.errorText`: the dedented literal with `{builddate}`,
`{revision}` and `{platform}` filled by `.format(builddate=slicer.app.applicationVersion,
revision=slicer.app.repositoryRevision, platform=slicer.app.platform)`. -/
def errorText (builddate revision platform : String) : String :=
  errorTextPre ++ builddate ++ errorTextMid1 ++ revision ++ errorTextMid2 ++
    platform ++ errorTextPost

/-- The HTML `onApply` shows when the extension is already installed:
`"<h4>" + _("SlicerDMRI is already installed.") + "<h4>"`. -/
def alreadyInstalledHtml : String :=
  "<h4>" ++ "SlicerDMRI is already installed." ++ "<h4>"

/-- Source `DMRIInstallWidget.onError`: disable the Apply button, then show the
static error panel. -/
def onError (builddate revision platform : String) : List UIEffect :=
  [UIEffect.setApplyEnabled false,
   UIEffect.setHtml (errorText builddate revision platform)]

/-- Source `DMRIInstallWidget.onApply`.  `installed` is
`emm.isExtensionInstalled("SlicerDMRI")`; `installOk` is the result of the
blocking `emm.downloadAndInstallExtensionByName("SlicerDMRI", True, True)`
call; `builddate`, `revision`, `platform` are the host version values baked
into `DMRIInstall.errorText`. -/
def onApply (installed installOk : Bool) (builddate revision platform : String) :
    List UIEffect :=
  if installed then
    [UIEffect.setHtml alreadyInstalledHtml, UIEffect.setApplyEnabled false]
  else
    [UIEffect.setInteractive false,
     UIEffect.updateExtensionsMetadataFromServer true true,
     UIEffect.downloadAndInstallExtensionByName "SlicerDMRI" true true] ++
    (if installOk then
      [UIEffect.confirmRestart "Restart to complete SlicerDMRI installation?"]
    else onError builddate revision platform)

/-- Recognises the blocking install call among the effects. -/
def isInstallCall : UIEffect → Bool
  | UIEffect.downloadAndInstallExtensionByName _ _ _ => true
  | _ => false

/-- Recognises the restart prompt among the effects. -/
def isRestartPrompt : UIEffect → Bool
  | UIEffect.confirmRestart _ => true
  | _ => false

/-- Recognises the metadata refresh among the effects. -/
def isMetadataRefresh : UIEffect → Bool
  | UIEffect.updateExtensionsMetadataFromServer _ _ => true
  | _ => false

/-- C5: when SlicerDMRI is already installed, `onApply` only sets the text
box to the "already installed" message and disables the Apply button: it
performs no metadata refresh, no install call and no restart prompt,
whatever the would-be install outcome. -/
theorem onApply_already_installed (installOk : Bool) (b r p : String) :
    onApply true installOk b r p =
      [UIEffect.setHtml alreadyInstalledHtml, UIEffect.setApplyEnabled false] ∧
    (onApply true installOk b r p).countP isMetadataRefresh = 0 ∧
    (onApply true installOk b r p).countP isInstallCall = 0 ∧
    (onApply true installOk b r p).countP isRestartPrompt = 0 :=
  ⟨rfl, rfl, rfl, rfl⟩

/-- C6: when the blocking install call fails, `onApply` ends by disabling
the Apply button and setting the text box to `errorText`, which embeds the
application version, repository revision and platform between its fixed
parts; the install call is performed exactly once (no retry) and no restart
prompt is issued. -/
theorem onApply_install_failure (b r p : String) :
    onApply false false b r p =
      [UIEffect.setInteractive false,
       UIEffect.updateExtensionsMetadataFromServer true true,
       UIEffect.downloadAndInstallExtensionByName "SlicerDMRI" true true,
       UIEffect.setApplyEnabled false,
       UIEffect.setHtml (errorTextPre ++ b ++ errorTextMid1 ++ r ++
         errorTextMid2 ++ p ++ errorTextPost)] ∧
    (onApply false false b r p).countP isInstallCall = 1 ∧
    (onApply false false b r p).countP isRestartPrompt = 0 :=
  ⟨rfl, rfl, rfl⟩

/-! ## SliceViewAnnotations: data model

`SliceAnnotations.cornerTexts` (built in `__init__`) is a list of four
dicts, one per corner; each maps a key such as `"2-PatientID"` to
`{"text": ..., "category": ...}`.  A dict is an association list in
insertion order; the keys of each corner dict are fixed at construction
and never added or removed, so a text assignment to an existing key is
modelled as an in-place update (`setText`), and the membership-guarded
assignments of `makeDicomAnnotation` as `setTextIfPresent`. -/

inductive Category where
  | A | B | C
deriving DecidableEq

structure Entry where
  text : String
  category : Category
deriving DecidableEq

/-- One corner-text dict: key, then `{"text", "category"}`. -/
abbrev Corner := List (String × Entry)

/-- Assignment `d[k]["text"] = t` for a key `k` present in `d` (the program only
assigns to keys created in `__init__`). -/
def setText (d : Corner) (k t : String) : Corner :=
  d.map fun p => if p.1 = k then (p.1, { p.2 with text := t }) else p

def containsKey (d : Corner) (k : String) : Bool := d.any (·.1 = k)

/-- Guarded assignment `if k in d: d[k]["text"] = t`. -/
def setTextIfPresent (d : Corner) (k t : String) : Corner :=
  if containsKey d k then setText d k t else d

/-- Guarded assignment `if k in d: d[k]["text"] = t` where computing `t` itself may raise
(the text is only computed when the key is present). -/
def setTextIfPresentOpt (d : Corner) (k : String) (t : Option String) :
    Option Corner :=
  if containsKey d k then t.map fun tv => setText d k tv else some d

/-- Replace the `i`-th corner dict of the corner-text list. -/
def modifyCorner (f : Corner → Corner) : Nat → List Corner → List Corner
  | _, [] => []
  | 0, d :: ds => f d :: ds
  | n + 1, d :: ds => d :: modifyCorner f n ds

/-- Replace the `i`-th corner dict when the update itself may raise. -/
def modifyCornerOpt (f : Corner → Option Corner) :
    Nat → List Corner → Option (List Corner)
  | _, [] => some []
  | 0, d :: ds => (f d).map (· :: ds)
  | n + 1, d :: ds => (modifyCornerOpt f n ds).map (d :: ·)

/-- Field `self.cornerTexts` as `SliceAnnotations.__init__` builds it: bottom
left, bottom right, top left, top right. -/
def initialCornerTexts : List Corner :=
  [ [("1-Label", ⟨"", Category.A⟩),
     ("2-Foreground", ⟨"", Category.A⟩),
     ("3-Background", ⟨"", Category.A⟩)],
    [("1-TR", ⟨"", Category.A⟩),
     ("2-TE", ⟨"", Category.A⟩)],
    [("1-PatientName", ⟨"", Category.B⟩),
     ("2-PatientID", ⟨"", Category.A⟩),
     ("3-PatientInfo", ⟨"", Category.B⟩),
     ("4-Bg-SeriesDate", ⟨"", Category.B⟩),
     ("5-Fg-SeriesDate", ⟨"", Category.B⟩),
     ("6-Bg-SeriesTime", ⟨"", Category.C⟩),
     ("7-Bg-SeriesTime", ⟨"", Category.C⟩),
     ("8-Bg-SeriesDescription", ⟨"", Category.C⟩),
     ("9-Fg-SeriesDescription", ⟨"", Category.C⟩)],
    [("1-Institution-Name", ⟨"", Category.B⟩),
     ("2-Referring-Phisycian", ⟨"", Category.B⟩),
     ("3-Manufacturer", ⟨"", Category.C⟩),
     ("4-Model", ⟨"", Category.C⟩),
     ("5-Patient-Position", ⟨"", Category.A⟩),
     ("6-TR", ⟨"", Category.A⟩),
     ("7-TE", ⟨"", Category.A⟩),
     ("8-SlabReconstructionThickness", ⟨"", Category.A⟩),
     ("9-SlabReconstructionType", ⟨"", Category.A⟩)] ]

/-- Source `SliceAnnotations.resetTexts`: set the `"text"` field of every entry of
every corner dict to the empty string. -/
def resetTexts (cts : List Corner) : List Corner :=
  cts.map fun d => d.map fun p => (p.1, { p.2 with text := "" })

/-! ## The extracted-DICOM-values cache -/

/-- A dict of extracted tag values: tag name, then value. -/
abbrev DicomDict := List (String × String)

/-- Field `self.extractedDICOMValuesCache`, a `collections.OrderedDict` in
insertion order (oldest first). -/
abbrev DicomCache := List (String × DicomDict)

/-- Field `self.extractedDICOMValuesCacheSize`. -/
def extractedDICOMValuesCacheSize : Nat := 12

/-- The `tags` dict of `extractDICOMValues`, in source order. -/
def dicomTags : List (String × String) :=
  [("0008,0021", "Series Date"),
   ("0008,0031", "Series Time"),
   ("0008,0060", "Modality"),
   ("0008,0070", "Manufacturer"),
   ("0008,0080", "Institution Name"),
   ("0008,0090", "Referring Physician Name"),
   ("0008,103e", "Series Description"),
   ("0008,1090", "Model"),
   ("0010,0010", "Patient Name"),
   ("0010,0020", "Patient ID"),
   ("0010,0030", "Patient Birth Date"),
   ("0010,0040", "Patient Sex"),
   ("0010,1010", "Patient Age"),
   ("0018,5100", "Patient Position"),
   ("0018,0080", "Repetition Time"),
   ("0018,0081", "Echo Time")]

/-- The dict `p` the miss path of `extractDICOMValues` builds:
`p[tags[tag]] = slicer.dicomDatabase.instanceValue(uid, tag)` for each tag.
`db uid tag` stands for `slicer.dicomDatabase.instanceValue(uid, tag)`. -/
def freshDICOMDict (db : String → String → String) (uid : String) : DicomDict :=
  dicomTags.map fun tg => (tg.2, db uid tg.1)

/-- Result `value`/`cache` after a call of `extractDICOMValues`, plus the list of
`(uid, tag)` pairs the call queried from `slicer.dicomDatabase`. -/
structure ExtractResult where
  value : DicomDict
  cache : DicomCache
  queries : List (String × String)
deriving DecidableEq

/-- Source `SliceAnnotations.extractDICOMValues`: return the cached dict when the
uid is a key of the cache; otherwise query every tag, append the new dict
at the (newest) end, and when the cache then exceeds
`extractedDICOMValuesCacheSize` drop its first (oldest-inserted) item
(`popitem(last=False)`). -/
def extractDICOMValues (db : String → String → String) (cache : DicomCache)
    (uid : String) : ExtractResult :=
  match cache.lookup uid with
  | some p => ⟨p, cache, []⟩
  | none =>
      let p := freshDICOMDict db uid
      let cache1 := cache ++ [(uid, p)]
      let cache2 :=
        if cache1.length > extractedDICOMValuesCacheSize then cache1.drop 1
        else cache1
      ⟨p, cache2, dicomTags.map fun tg => (uid, tg.1)⟩

/-- Value of a tag name in an extracted dict (every name of `dicomTags` is
present in any dict the program builds). -/
def dval (d : DicomDict) (k : String) : String := (d.lookup k).getD ""

/-- Assignment `d[k] = v` on an extracted dict. -/
def dsetVal (d : DicomDict) (k v : String) : DicomDict :=
  d.map fun p => if p.1 = k then (p.1, v) else p

/-! ## The static formatting helpers -/

/-- Source `SliceAnnotations.makePatientInfo`. -/
def makePatientInfo (d : DicomDict) : String :=
  dval d "Patient Birth Date" ++ ", " ++ dval d "Patient Age" ++ ", " ++
    dval d "Patient Sex"

/-- Source `SliceAnnotations.formatDICOMDate`.  `rstrip()` is `trimRight`
(trailing whitespace removed). -/
def formatDICOMDate (date : String) : String :=
  if date ≠ "" then
    let d := date.trimRight
    pyTakeTo d 4 ++ "-" ++ pySlice d 4 6 ++ "-" ++ pyDropFrom d 6
  else ""

/-- Python `int(s)` for a string of decimal digits; `none` stands for the
`ValueError` `int()` raises otherwise (signs and surrounding whitespace,
which Python's `int` also accepts but DICOM time strings do not use, are
not modelled). -/
def pyIntDigits (s : String) : Option Nat :=
  if s.data ≠ [] ∧ s.data.all (fun c => 48 ≤ c.toNat ∧ c.toNat ≤ 57) then
    some (s.data.foldl (fun n c => 10 * n + (c.toNat - 48)) 0)
  else none

/-- Source `SliceAnnotations.formatDICOMTime`.  `int(time[:2])` is modelled with
`pyIntDigits`. -/
def formatDICOMTime (time : String) : Option String :=
  if time = "" then
    some ""
  else
    match pyIntDigits (pySlice time 0 2) with
    | none => none
    | some hh =>
        let (studyH, clockTime) :=
          if hh > 12 then (toString (hh - 12), " PM")
          else (pySlice time 0 2, " AM")
        some (studyH ++ ":" ++ pySlice time 2 4 ++ ":" ++ pySlice time 4 6 ++
          clockTime)

/-- Source `SliceAnnotations.fitText`.  `int(textSize / 2)` truncates toward zero
(`Int.tdiv`); the slices keep Python's negative-index behaviour via
`pyTakeTo`/`pyDropFrom` (`text[-postSize:]` is `pyDropFrom text (-postSize)`). -/
def fitText (text : String) (textSize : Int) : String :=
  if (text.length : Int) > textSize then
    let preSize := Int.tdiv textSize 2
    let postSize := preSize - 3
    pyTakeTo text preSize ++ "..." ++ pyDropFrom text (-postSize)
  else text

/-! ## Sorting the corner keys

`drawCornerAnnotations` visits `sorted(cornerText.keys())`: Python sorts
strings lexicographically by code point.  `keyLe` is that order as an
executable comparison. -/

def keyLeAux : List Char → List Char → Bool
  | [], _ => true
  | _ :: _, [] => false
  | x :: xs, y :: ys =>
      if x.toNat < y.toNat then true
      else if y.toNat < x.toNat then false
      else keyLeAux xs ys

/-- Lexicographic (code-point) order on strings, Python's `sorted` order. -/
def keyLe (a b : String) : Bool := keyLeAux a.data b.data

theorem keyLeAux_total (xs ys : List Char) :
    keyLeAux xs ys = true ∨ keyLeAux ys xs = true := by
  induction xs generalizing ys with
  | nil => left; rfl
  | cons x xs ih =>
      cases ys with
      | nil => right; rfl
      | cons y ys =>
          by_cases h1 : x.toNat < y.toNat
          · left; simp [keyLeAux, h1]
          · by_cases h2 : y.toNat < x.toNat
            · right; simp [keyLeAux, h2]
            · rcases ih ys with h | h
              · left; simp [keyLeAux, h1, h2, h]
              · right; simp [keyLeAux, h1, h2, h]

theorem keyLeAux_head_le (x y : Char) (xs ys : List Char)
    (h : keyLeAux (x :: xs) (y :: ys) = true) : x.toNat ≤ y.toNat := by
  by_cases hxy : x.toNat < y.toNat
  · omega
  · by_cases hyx : y.toNat < x.toNat
    · simp [keyLeAux, hxy, hyx] at h
    · omega

theorem keyLeAux_head_eq (x y : Char) (xs ys : List Char)
    (h : keyLeAux (x :: xs) (y :: ys) = true) (hxy : ¬ x.toNat < y.toNat) :
    keyLeAux xs ys = true := by
  by_cases hyx : y.toNat < x.toNat
  · simp [keyLeAux, hxy, hyx] at h
  · simpa [keyLeAux, hxy, hyx] using h

theorem keyLeAux_trans (xs ys zs : List Char) (h1 : keyLeAux xs ys = true)
    (h2 : keyLeAux ys zs = true) : keyLeAux xs zs = true := by
  induction xs generalizing ys zs with
  | nil => rfl
  | cons x xs ih =>
      cases ys with
      | nil => simp [keyLeAux] at h1
      | cons y ys =>
          cases zs with
          | nil => simp [keyLeAux] at h2
          | cons z zs =>
              have hxy := keyLeAux_head_le x y xs ys h1
              have hyz := keyLeAux_head_le y z ys zs h2
              by_cases hxz : x.toNat < z.toNat
              · simp [keyLeAux, hxz]
              · have hzx : ¬ z.toNat < x.toNat := by omega
                have r1 := keyLeAux_head_eq x y xs ys h1 (by omega)
                have r2 := keyLeAux_head_eq y z ys zs h2 (by omega)
                simp only [keyLeAux]
                rw [if_neg hxz, if_neg hzx]
                exact ih ys zs r1 r2

instance : IsTotal String fun a b => keyLe a b = true :=
  ⟨fun a b => keyLeAux_total a.data b.data⟩

instance : IsTrans String fun a b => keyLe a b = true :=
  ⟨fun a b c => keyLeAux_trans a.data b.data c.data⟩

/-- Loop header `keys = sorted(cornerText.keys())` in `drawCornerAnnotations`. -/
def sortedKeys (d : Corner) : List String :=
  List.insertionSort (fun a b => keyLe a b = true) (d.map Prod.fst)

/-- The display-level filter of `drawCornerAnnotations` as a predicate:
level 0 shows every category, level 1 all but `C`, level 2 only `A` (and
any other level value nothing, as the if/elif chain falls through). -/
def levelAllows (level : Nat) (c : Category) : Bool :=
  level == 0 || (level == 1 && c != Category.C) ||
    (level == 2 && c == Category.A)

/-- The text one visited key contributes to a corner's assembled
annotation string: the fitted text plus a newline when the entry's text is
non-empty and the display level allows its category, nothing otherwise. -/
def cornerSegment (level : Nat) (maxLen : Int) (d : Corner) (key : String) :
    String :=
  match d.lookup key with
  | none => ""
  | some e =>
      if (e.text != "") && levelAllows level e.category then
        fitText e.text maxLen ++ "\n"
      else ""

/-- The inner loop of `drawCornerAnnotations` for one corner dict: visit
the keys in sorted order and accumulate `text + "\n"` for each entry whose
(fitted) text is non-empty and whose category the display level admits. -/
def assembleCorner (level : Nat) (maxLen : Int) (d : Corner) : String :=
  (sortedKeys d).foldl
    (fun acc key =>
      match d.lookup key with
      | none => acc
      | some e =>
          if e.text != "" then
            let t := fitText e.text maxLen
            if level = 0 then acc ++ t ++ "\n"
            else if level = 1 then
              if e.category != Category.C then acc ++ t ++ "\n" else acc
            else if level = 2 then
              if e.category == Category.A then acc ++ t ++ "\n" else acc
            else acc
          else acc)
    ""

/-! ## The annotation manager's state and environment -/

/-- The fields of `SliceAnnotations` the annotation pipeline reads and
writes (font family is only ever copied to the text property and is not
modelled).  `dicomVolumeNode` holds the 0/1 flag as a `Bool`. -/
structure AnnState where
  sliceViewAnnotationsEnabled : Bool
  annotationsDisplayAmount : Nat
  topLeft : Bool
  topRight : Bool
  bottomLeft : Bool
  fontSize : Int
  maximumTextLength : Int
  backgroundDICOMAnnotationsPersistence : Bool
  allowForcingTopRightVisibility : Bool
  dicomVolumeNode : Bool
  cornerTexts : List Corner
  extractedDICOMValuesCache : DicomCache
deriving DecidableEq

/-- A volume node: its `GetName()` and its `GetAttribute("DICOM.instanceUIDs")`
(`none` when the attribute is unset). -/
structure VolumeInfo where
  name : String
  instanceUIDs : Option String
deriving DecidableEq

/-- Python truthiness of the `instanceUIDs` attribute: `None` and the
empty string are falsy. -/
def truthy : Option String → Bool
  | none => false
  | some s => s != ""

/-- Everything the pipeline reads from the host for one slice view:
the DICOM database (`db uid tag` is
`slicer.dicomDatabase.instanceValue(uid, tag)`), the slice logic's layers
and nodes, and the view geometry.  `foregroundOpacityPct` and
`labelOpacityPct` stand for the already-rendered `"%d" % (opacity * 100)`
values, and `slabThicknessStr` for `str(GetSlabReconstructionThickness())`
(float formatting is outside the model). -/
structure Env where
  dbOpen : Bool
  db : String → String → String
  compositePresent : Bool
  sliceNodePresent : Bool
  sliceViewPresent : Bool
  backgroundVolume : Option VolumeInfo
  foregroundVolume : Option VolumeInfo
  labelVolume : Option VolumeInfo
  foregroundOpacityPct : Int
  labelOpacityPct : Int
  slabEnabled : Bool
  slabThicknessStr : String
  slabTypeStr : String
  lengthUnitSuffix : String
  viewHeight : Int
  viewWidth : Int

/-- Source `SliceAnnotations.drawCornerAnnotations` for one slice view: when
annotations are enabled, recompute `maximumTextLength` from the view width
and the font size (`int((viewWidth - 40) / fontSize)` truncates toward
zero) and produce the `SetText(i, ...)` effect for each of the four
corners; when disabled, return with no effect. -/
def drawCornerAnnotations (st : AnnState) (viewWidth : Int) :
    AnnState × List (Nat × String) :=
  if !st.sliceViewAnnotationsEnabled then (st, [])
  else
    let maxLen := Int.tdiv (viewWidth - 40) st.fontSize
    let st2 := { st with maximumTextLength := maxLen }
    (st2, st2.cornerTexts.enum.map fun ie =>
      (ie.1, assembleCorner st2.annotationsDisplayAmount maxLen ie.2))

/-! ## makeDicomAnnotation

`SliceAnnotations.makeDicomAnnotation` (renamed here because of a lexical
restriction on identifier suffixes).  It reads `topLeft`/`topRight`, the
view height and the corner-text dicts, and updates the top-left (index 2)
and top-right (index 3) dicts plus the DICOM cache.  The returned list
collects the `(uid, tag)` database queries the call performed.  The source
line `backgroundDicomDic["Patient Birth Date"] = self.formatDICOMDate(...)`
mutates the dict object in place (the same object the cache holds); it is
modelled with value semantics on the local dict, which no theorem below
observes through the cache. -/
def makeDicomAnnotationText (dbOpen : Bool) (db : String → String → String)
    (viewHeight : Int) (topLeft topRight : Bool)
    (cts : List Corner) (cache : DicomCache)
    (bgUid : String) (fgUid : Option String) :
    Option (List Corner × DicomCache × List (String × String)) := do
  -- Do not attempt to retrieve dicom values if no local database exists
  if !dbOpen then
    return (cts, cache, [])
  else
    match fgUid with
    | some fg =>
        -- fgUid is not None and bgUid is not None
        let r1 := extractDICOMValues db cache bgUid
        let r2 := extractDICOMValues db r1.cache fg
        let bgDic := r1.value
        let fgDic := r2.value
        let cache := r2.cache
        let qs := r1.queries ++ r2.queries
        if topLeft ∧ viewHeight > 150 then
          if dval bgDic "Patient Name" ≠ dval fgDic "Patient Name" ∨
              dval bgDic "Patient ID" ≠ dval fgDic "Patient ID" ∨
              dval bgDic "Patient Birth Date" ≠ dval fgDic "Patient Birth Date" then
            -- background and foreground are from different patients
            let cts := modifyCorner
              (fun d => d.map fun p => (p.1, { p.2 with text := "" })) 2 cts
            return (cts, cache, qs)
          else
            let cts := modifyCorner (fun d => setTextIfPresent d "1-PatientName"
              ((dval bgDic "Patient Name").replace "^" ", ")) 2 cts
            let cts := modifyCorner (fun d => setTextIfPresent d "2-PatientID"
              ("ID: " ++ dval bgDic "Patient ID")) 2 cts
            let bgDic := dsetVal bgDic "Patient Birth Date"
              (formatDICOMDate (dval bgDic "Patient Birth Date"))
            let cts := modifyCorner (fun d => setTextIfPresent d "3-PatientInfo"
              (makePatientInfo bgDic)) 2 cts
            let cts :=
              if dval bgDic "Series Date" ≠ dval fgDic "Series Date" then
                let c := modifyCorner (fun d => setTextIfPresent d "4-Bg-SeriesDate"
                  ("B: " ++ formatDICOMDate (dval bgDic "Series Date"))) 2 cts
                modifyCorner (fun d => setTextIfPresent d "5-Fg-SeriesDate"
                  ("F: " ++ formatDICOMDate (dval fgDic "Series Date"))) 2 c
              else
                modifyCorner (fun d => setTextIfPresent d "4-Bg-SeriesDate"
                  (formatDICOMDate (dval bgDic "Series Date"))) 2 cts
            let cts ←
              if dval bgDic "Series Time" ≠ dval fgDic "Series Time" then do
                let c ← modifyCornerOpt (fun d => setTextIfPresentOpt d
                  "6-Bg-SeriesTime"
                  ((formatDICOMTime (dval bgDic "Series Time")).map
                    ("B: " ++ ·))) 2 cts
                modifyCornerOpt (fun d => setTextIfPresentOpt d
                  "7-Fg-SeriesTime"
                  ((formatDICOMTime (dval fgDic "Series Time")).map
                    ("F: " ++ ·))) 2 c
              else
                modifyCornerOpt (fun d => setTextIfPresentOpt d
                  "6-Bg-SeriesTime"
                  (formatDICOMTime (dval bgDic "Series Time"))) 2 cts
            let cts :=
              if dval bgDic "Series Description" ≠ dval fgDic "Series Description" then
                let c := modifyCorner (fun d => setTextIfPresent d
                  "8-Bg-SeriesDescription"
                  ("B: " ++ dval bgDic "Series Description")) 2 cts
                modifyCorner (fun d => setTextIfPresent d
                  "9-Fg-SeriesDescription"
                  ("F: " ++ dval fgDic "Series Description")) 2 c
              else
                modifyCorner (fun d => setTextIfPresent d
                  "8-Bg-SeriesDescription"
                  (dval bgDic "Series Description")) 2 cts
            return (cts, cache, qs)
        else
          return (cts, cache, qs)
    | none =>
        -- Only Background or Only Foreground: uid = bgUid
        let r := extractDICOMValues db cache bgUid
        let dic := r.value
        let cache := r.cache
        let qs := r.queries
        let cts ←
          if topLeft ∧ viewHeight > 150 then do
            let cts := modifyCorner (fun d => setText d "1-PatientName"
              ((dval dic "Patient Name").replace "^" ", ")) 2 cts
            let cts := modifyCorner (fun d => setText d "2-PatientID"
              ("ID: " ++ dval dic "Patient ID")) 2 cts
            let dic := dsetVal dic "Patient Birth Date"
              (formatDICOMDate (dval dic "Patient Birth Date"))
            let cts := modifyCorner (fun d => setText d "3-PatientInfo"
              (makePatientInfo dic)) 2 cts
            let cts := modifyCorner (fun d => setText d "4-Bg-SeriesDate"
              (formatDICOMDate (dval dic "Series Date"))) 2 cts
            let tB ← formatDICOMTime (dval dic "Series Time")
            let cts := modifyCorner (fun d => setText d "6-Bg-SeriesTime" tB) 2 cts
            pure (modifyCorner (fun d => setText d "8-Bg-SeriesDescription"
              (dval dic "Series Description")) 2 cts)
          else pure cts
        -- top right corner annotation
        if topRight then
          let cts := modifyCorner (fun d => setText d "1-Institution-Name"
            (dval dic "Institution Name")) 3 cts
          let cts := modifyCorner (fun d => setText d "2-Referring-Phisycian"
            ((dval dic "Referring Physician Name").replace "^" ", ")) 3 cts
          let cts := modifyCorner (fun d => setText d "3-Manufacturer"
            (dval dic "Manufacturer")) 3 cts
          let cts := modifyCorner (fun d => setText d "4-Model"
            (dval dic "Model")) 3 cts
          let cts := modifyCorner (fun d => setText d "5-Patient-Position"
            (dval dic "Patient Position")) 3 cts
          let cts :=
            if dval dic "Modality" = "MR" then
              let c := modifyCorner (fun d => setText d "6-TR"
                ("TR " ++ dval dic "Repetition Time")) 3 cts
              modifyCorner (fun d => setText d "7-TE"
                ("TE " ++ dval dic "Echo Time")) 3 c
            else cts
          return (cts, cache, qs)
        else
          return (cts, cache, qs)

/-! ## makeAnnotationText and the update entry points -/

/-- The body of `SliceAnnotations.makeAnnotationText` after its first
statement `self.resetTexts()`: the three volume cases, the slab
reconstruction handling, the label line and the final
`drawCornerAnnotations` (whose `SetText` effects are returned). -/
def makeAnnotationTextCore (env : Env) (st : AnnState) :
    Option (AnnState × List (Nat × String)) := do
  if !env.compositePresent then
    -- if not sliceCompositeNode: return
    return (st, [])
  else if !env.sliceNodePresent then
    -- if not sliceNode: return
    return (st, [])
  else if env.sliceViewPresent then
    let st ← (
      match env.backgroundVolume, env.foregroundVolume with
      | some bgV, some fgV => do
          -- Case I: Both background and foreground
          let st :=
            if st.bottomLeft then
              let ct := modifyCorner (fun d => setText d "3-Background"
                ("B: " ++ bgV.name)) 0 st.cornerTexts
              let ct := modifyCorner (fun d => setText d "2-Foreground"
                ("F: " ++ fgV.name ++ " (" ++ toString env.foregroundOpacityPct ++
                  "%)")) 0 ct
              { st with cornerTexts := ct }
            else st
          if truthy bgV.instanceUIDs ∧ truthy fgV.instanceUIDs then
            let bgUid := partitionBefore (bgV.instanceUIDs.getD "")
            let fgUid := partitionBefore (fgV.instanceUIDs.getD "")
            let st := { st with dicomVolumeNode := true }
            let (ct, cache, _qs) ← makeDicomAnnotationText env.dbOpen env.db
              env.viewHeight st.topLeft st.topRight st.cornerTexts
              st.extractedDICOMValuesCache bgUid (some fgUid)
            pure { st with cornerTexts := ct, extractedDICOMValuesCache := cache }
          else if truthy bgV.instanceUIDs ∧
              st.backgroundDICOMAnnotationsPersistence then
            let uid := partitionBefore (bgV.instanceUIDs.getD "")
            let st := { st with dicomVolumeNode := true }
            let (ct, cache, _qs) ← makeDicomAnnotationText env.dbOpen env.db
              env.viewHeight st.topLeft st.topRight st.cornerTexts
              st.extractedDICOMValuesCache uid none
            pure { st with cornerTexts := ct, extractedDICOMValuesCache := cache }
          else
            let ct := modifyCorner
              (fun d => d.map fun p => (p.1, { p.2 with text := "" })) 2
              st.cornerTexts
            pure { st with cornerTexts := ct, dicomVolumeNode := false }
      | some bgV, none => do
          -- Case II: Only background
          let st :=
            if st.bottomLeft then
              { st with cornerTexts := modifyCorner (fun d => setText d
                  "3-Background" ("B: " ++ bgV.name)) 0 st.cornerTexts }
            else st
          if truthy bgV.instanceUIDs then
            let uid := partitionBefore (bgV.instanceUIDs.getD "")
            let (ct, cache, _qs) ← makeDicomAnnotationText env.dbOpen env.db
              env.viewHeight st.topLeft st.topRight st.cornerTexts
              st.extractedDICOMValuesCache uid none
            pure { st with
              cornerTexts := ct
              extractedDICOMValuesCache := cache
              dicomVolumeNode := true }
          else
            pure { st with dicomVolumeNode := false }
      | none, some fgV => do
          -- Case III: Only foreground
          let st :=
            if st.bottomLeft then
              { st with cornerTexts := modifyCorner (fun d => setText d
                  "2-Foreground" ("F: " ++ fgV.name)) 0 st.cornerTexts }
            else st
          if truthy fgV.instanceUIDs then
            let uid := partitionBefore (fgV.instanceUIDs.getD "")
            -- passed UID as bg
            let (ct, cache, _qs) ← makeDicomAnnotationText env.dbOpen env.db
              env.viewHeight st.topLeft st.topRight st.cornerTexts
              st.extractedDICOMValuesCache uid none
            pure { st with
              cornerTexts := ct
              extractedDICOMValuesCache := cache
              dicomVolumeNode := true }
          else
            pure { st with dicomVolumeNode := false }
      | none, none => pure st)
    -- Ensure visibility of top-right corner annotations if slab
    -- reconstruction is enabled (the topRightCheckBox is also checked;
    -- widget state is not modelled)
    let st :=
      if env.slabEnabled ∧ st.allowForcingTopRightVisibility then
        { st with topRight := true, allowForcingTopRightVisibility := false }
      else st
    -- Slab reconstruction is applied to both foreground and background
    let st :=
      if st.topRight ∧ env.slabEnabled then
        let ct := modifyCorner (fun d => setText d "8-SlabReconstructionThickness"
          ("Thickness: " ++ env.slabThicknessStr ++ " " ++
            env.lengthUnitSuffix)) 3 st.cornerTexts
        let ct := modifyCorner (fun d => setText d "9-SlabReconstructionType"
          ("Type: " ++ env.slabTypeStr)) 3 ct
        { st with cornerTexts := ct }
      else
        let ct := modifyCorner (fun d => setText d "8-SlabReconstructionThickness"
          "") 3 st.cornerTexts
        let ct := modifyCorner (fun d => setText d "9-SlabReconstructionType"
          "") 3 ct
        { st with cornerTexts := ct }
    let st :=
      match env.labelVolume with
      | some lv =>
          if st.bottomLeft then
            { st with cornerTexts := modifyCorner (fun d => setText d "1-Label"
                ("L: " ++ lv.name ++ " (" ++ toString env.labelOpacityPct ++
                  "%)")) 0 st.cornerTexts }
          else st
      | none => st
    return drawCornerAnnotations st env.viewWidth
  else
    return (st, [])

/-- Source `SliceAnnotations.makeAnnotationText`: `self.resetTexts()` first, then
the rest of the body. -/
def makeAnnotationText (env : Env) (st : AnnState) :
    Option (AnnState × List (Nat × String)) :=
  makeAnnotationTextCore env { st with cornerTexts := resetTexts st.cornerTexts }

/-- Apply a list of `SetText(position, text)` effects to the four displayed
corner texts of one view's corner-annotation actor. -/
def applySetTexts (displayed : List String) (effs : List (Nat × String)) :
    List String :=
  effs.foldl (fun d ie => d.set ie.1 ie.2) displayed

/-- Source `SliceAnnotations.updateCornerAnnotation` for one slice view, acting on
the view's four displayed corner texts: when enabled, set the font (not
modelled) and recompute the texts via `makeAnnotationText`; when disabled,
clear all four positions (`for position in range(4): SetText(position, "")`). -/
def updateCornerAnnotationState (env : Env) (st : AnnState)
    (displayed : List String) : Option (AnnState × List String) :=
  if st.sliceViewAnnotationsEnabled then do
    let (st2, effs) ← makeAnnotationText env st
    some (st2, applySetTexts displayed effs)
  else
    -- Clear Annotations
    some (st, applySetTexts displayed [(0, ""), (1, ""), (2, ""), (3, "")])

/-- The loop of `updateSliceViewFromGUI` over the slice views, each view
carrying its four displayed corner texts. -/
def updateViews (env : Env) : AnnState → List (List String) →
    Option (AnnState × List (List String))
  | st, [] => some (st, [])
  | st, v :: vs => do
      let (st2, v2) ← updateCornerAnnotationState env st v
      let (st3, vs2) ← updateViews env st2 vs
      some (st3, v2 :: vs2)

/-- Source `SliceAnnotations.updateSliceViewFromGUI`: when annotations are
disabled it removes the observers (not modelled) and returns — before
touching any corner annotation — and when enabled it runs
`updateCornerAnnotation` on every slice view. -/
def updateSliceViewFromGUI (env : Env) (st : AnnState)
    (views : List (List String)) : Option (AnnState × List (List String)) :=
  if !st.sliceViewAnnotationsEnabled then
    some (st, views)
  else
    updateViews env st views

/-- Source `SliceAnnotations.onSliceViewAnnotationsCheckBox`: copy the checkbox
state into `sliceViewAnnotationsEnabled`, persist it in the settings and
refresh the button-enabled states (neither modelled), then run
`updateSliceViewFromGUI`. -/
def onSliceViewAnnotationsCheckBox (env : Env) (checked : Bool)
    (st : AnnState) (views : List (List String)) :
    Option (AnnState × List (List String)) :=
  updateSliceViewFromGUI env
    { st with sliceViewAnnotationsEnabled := checked } views

/-! ## String lemmas -/

theorem strMk_append_mk (l m : List Char) : (⟨l⟩ : String) ++ ⟨m⟩ = ⟨l ++ m⟩ :=
  rfl

theorem str_append_assoc (a b c : String) : a ++ b ++ c = a ++ (b ++ c) := by
  cases a with | mk l =>
  cases b with | mk m =>
  cases c with | mk n =>
  simp only [strMk_append_mk, List.append_assoc]

theorem str_append_empty (a : String) : a ++ "" = a := by
  cases a with | mk l =>
  show (⟨l⟩ : String) ++ ⟨[]⟩ = ⟨l⟩
  rw [strMk_append_mk, List.append_nil]

theorem str_empty_append (a : String) : "" ++ a = a := by
  cases a with | mk l =>
  show (⟨[]⟩ : String) ++ ⟨l⟩ = ⟨l⟩
  rw [strMk_append_mk, List.nil_append]

theorem strLength_append (a b : String) : (a ++ b).length = a.length + b.length := by
  cases a with | mk l =>
  cases b with | mk m =>
  rw [strMk_append_mk]
  exact List.length_append l m

theorem str_newline_ne_empty (x : String) : x ++ "\n" ≠ "" := by
  intro heq
  have h := congrArg String.length heq
  rw [strLength_append] at h
  have h1 : ("\n" : String).length = 1 := rfl
  have h2 : ("" : String).length = 0 := rfl
  omega

theorem strFoldl_append (l : List String) (a : String) :
    l.foldl (fun r s => r ++ s) a = a ++ l.foldl (fun r s => r ++ s) "" := by
  induction l generalizing a with
  | nil => simp only [List.foldl_nil]; rw [str_append_empty]
  | cons x xs ih =>
      rw [List.foldl_cons, List.foldl_cons, ih (a ++ x), ih ("" ++ x),
        str_empty_append, str_append_assoc]

theorem strJoin_cons (s : String) (l : List String) :
    String.join (s :: l) = s ++ String.join l := by
  simp only [String.join, List.foldl_cons]
  rw [strFoldl_append, str_empty_append]

/-- A left fold whose step appends a per-key segment is the concatenation
of the segments. -/
theorem foldl_segments (f : String → String → String) (g : String → String)
    (hf : ∀ a k, f a k = a ++ g k) (ks : List String) :
    ∀ acc : String, ks.foldl f acc = acc ++ String.join (ks.map g) := by
  induction ks with
  | nil =>
      intro acc
      simp only [List.foldl_nil, List.map_nil]
      rw [show String.join ([] : List String) = "" from rfl, str_append_empty]
  | cons k ks ih =>
      intro acc
      rw [List.foldl_cons, hf, ih, List.map_cons, strJoin_cons, str_append_assoc]

/-- The loop body of `drawCornerAnnotations` appends exactly
`cornerSegment` for the visited key. -/
theorem assembleCorner_step (level : Nat) (maxLen : Int) (d : Corner)
    (a k : String) :
    (match d.lookup k with
      | none => a
      | some e =>
          if e.text != "" then
            let t := fitText e.text maxLen
            if level = 0 then a ++ t ++ "\n"
            else if level = 1 then
              if e.category != Category.C then a ++ t ++ "\n" else a
            else if level = 2 then
              if e.category == Category.A then a ++ t ++ "\n" else a
            else a
          else a) = a ++ cornerSegment level maxLen d k := by
  cases hd : d.lookup k with
  | none => rw [cornerSegment, hd]; exact (str_append_empty a).symm
  | some e =>
      rw [cornerSegment, hd]
      by_cases ht : e.text = ""
      · simp [ht, str_append_empty]
      · match level with
        | 0 => simp [ht, levelAllows, str_append_assoc]
        | 1 =>
            by_cases hc : e.category = Category.C <;>
              simp [ht, levelAllows, hc, str_append_assoc, str_append_empty]
        | 2 =>
            by_cases hc : e.category = Category.A <;>
              simp [ht, levelAllows, hc, str_append_assoc, str_append_empty]
        | (n + 3) =>
            have h1 : ¬ (n + 3 = 1) := by omega
            have h2 : ¬ (n + 3 = 2) := by omega
            simp [ht, levelAllows, h1, h2, str_append_empty]

/-- The assembled corner string is the concatenation, over the sorted
keys, of each key's segment. -/
theorem assembleCorner_eq (level : Nat) (maxLen : Int) (d : Corner) :
    assembleCorner level maxLen d =
      String.join ((sortedKeys d).map (cornerSegment level maxLen d)) := by
  rw [assembleCorner,
    foldl_segments _ (cornerSegment level maxLen d)
      (fun a k => assembleCorner_step level maxLen d a k) (sortedKeys d) "",
    str_empty_append]

/-! ## Claim theorems -/

theorem cornerSegment_none (level : Nat) (maxLen : Int) (d : Corner)
    (key : String) (hd : d.lookup key = none) :
    cornerSegment level maxLen d key = "" := by
  rw [cornerSegment, hd]

theorem cornerSegment_some (level : Nat) (maxLen : Int) (d : Corner)
    (key : String) (e : Entry) (hd : d.lookup key = some e) :
    cornerSegment level maxLen d key =
      if (e.text != "") && levelAllows level e.category then
        fitText e.text maxLen ++ "\n"
      else "" := by
  rw [cornerSegment, hd]

/-- C3: the corner annotation string is assembled by visiting the corner's
keys in sorted order (the visited key list is sorted and is a permutation
of the dict's keys), and a key contributes its (fitted) entry text followed
by a newline exactly when the text is non-empty and the display level
permits its category; the level filter admits every category at level 0,
exactly the categories other than C at level 1, and exactly category A at
level 2; entries with empty text contribute nothing. -/
theorem drawCornerAnnotations_categoryFilter (level : Nat) (maxLen : Int)
    (d : Corner) :
    assembleCorner level maxLen d =
      String.join ((sortedKeys d).map (cornerSegment level maxLen d)) ∧
    List.Pairwise (fun a b => keyLe a b = true) (sortedKeys d) ∧
    List.Perm (sortedKeys d) (d.map Prod.fst) ∧
    (∀ key, cornerSegment level maxLen d key = "" ∨
      ∃ e, d.lookup key = some e ∧ e.text ≠ "" ∧
        levelAllows level e.category = true ∧
        cornerSegment level maxLen d key = fitText e.text maxLen ++ "\n") ∧
    (∀ key e, d.lookup key = some e →
      (cornerSegment level maxLen d key = fitText e.text maxLen ++ "\n" ↔
        e.text ≠ "" ∧ levelAllows level e.category = true)) ∧
    (∀ key e, d.lookup key = some e → e.text = "" →
      cornerSegment level maxLen d key = "") ∧
    (∀ c, levelAllows 0 c = true) ∧
    (∀ c, levelAllows 1 c = true ↔ c ≠ Category.C) ∧
    (∀ c, levelAllows 2 c = true ↔ c = Category.A) := by
  refine ⟨assembleCorner_eq level maxLen d,
    List.sorted_insertionSort _ _, List.perm_insertionSort _ _,
    ?_, ?_, ?_, fun c => rfl, ?_, ?_⟩
  · intro key
    cases hd : d.lookup key with
    | none => left; exact cornerSegment_none level maxLen d key hd
    | some e =>
        by_cases hb : ((e.text != "") && levelAllows level e.category) = true
        · right
          have hparts := hb
          rw [Bool.and_eq_true, bne_iff_ne] at hparts
          refine ⟨e, rfl, hparts.1, hparts.2, ?_⟩
          rw [cornerSegment_some level maxLen d key e hd, if_pos hb]
        · left
          rw [cornerSegment_some level maxLen d key e hd, if_neg hb]
  · intro key e hd
    constructor
    · intro heq
      by_cases hb : ((e.text != "") && levelAllows level e.category) = true
      · rw [Bool.and_eq_true, bne_iff_ne] at hb
        exact hb
      · rw [cornerSegment_some level maxLen d key e hd, if_neg hb] at heq
        exact absurd heq.symm (str_newline_ne_empty _)
    · intro hcond
      have hb : ((e.text != "") && levelAllows level e.category) = true := by
        rw [Bool.and_eq_true, bne_iff_ne]
        exact hcond
      rw [cornerSegment_some level maxLen d key e hd, if_pos hb]
  · intro key e hd hempty
    rw [cornerSegment_some level maxLen d key e hd,
      if_neg (by simp [hempty])]
  · intro c
    cases c <;> simp [levelAllows]
  · intro c
    cases c <;> simp [levelAllows]

/-- C7: when the local DICOM metadata database is not open,
`makeDicomAnnotation` returns at once: no error, no database query, and no
change to any corner-text dict or to the cache. -/
theorem makeDicomSkipped_whenDbClosed (db : String → String → String)
    (viewHeight : Int) (topLeft topRight : Bool) (cts : List Corner)
    (cache : DicomCache) (bgUid : String) (fgUid : Option String) :
    makeDicomAnnotationText false db viewHeight topLeft topRight cts cache
      bgUid fgUid = some (cts, cache, []) := rfl

/-- C8: when the uid is already a key of the extracted-DICOM-values cache,
`extractDICOMValues` returns the cached dict, performs no database query
and leaves the cache unchanged, so an immediately repeated call returns
the same result. -/
theorem extractDICOMValues_cached (db : String → String → String)
    (cache : DicomCache) (uid : String) (pv : DicomDict)
    (h : cache.lookup uid = some pv) :
    extractDICOMValues db cache uid = ⟨pv, cache, []⟩ ∧
    extractDICOMValues db (extractDICOMValues db cache uid).cache uid =
      extractDICOMValues db cache uid := by
  have h1 : extractDICOMValues db cache uid = ⟨pv, cache, []⟩ := by
    rw [extractDICOMValues, h]
  refine ⟨h1, ?_⟩
  rw [h1]
  exact h1

/-- Witness for C8 at a one-entry cache. -/
theorem extractDICOMValues_cached_witness :
    extractDICOMValues (fun _ _ => "") [("u1", [("Patient Name", "Doe^John")])]
        "u1" =
      ⟨[("Patient Name", "Doe^John")], [("u1", [("Patient Name", "Doe^John")])],
        []⟩ ∧
    extractDICOMValues (fun _ _ => "")
        (extractDICOMValues (fun _ _ => "")
          [("u1", [("Patient Name", "Doe^John")])] "u1").cache "u1" =
      extractDICOMValues (fun _ _ => "")
        [("u1", [("Patient Name", "Doe^John")])] "u1" :=
  extractDICOMValues_cached (fun _ _ => "") _ "u1"
    [("Patient Name", "Doe^John")] rfl

/-- C9: `formatDICOMTime` maps the empty string to the empty string, and a
time string whose first two characters form the number `hh` to an
`" PM"`-suffixed string showing `hh - 12` exactly when `hh > 12`, and
otherwise to an `" AM"`-suffixed string showing the original two hour
characters (so noon `12` and midnight `00` both render as AM). -/
theorem formatDICOMTime_spec (time : String) (hh : Nat)
    (h : pyIntDigits (pySlice time 0 2) = some hh) (hne : time ≠ "") :
    formatDICOMTime "" = some "" ∧
    (12 < hh → formatDICOMTime time =
      some (toString (hh - 12) ++ ":" ++ pySlice time 2 4 ++ ":" ++
        pySlice time 4 6 ++ " PM")) ∧
    (hh ≤ 12 → formatDICOMTime time =
      some (pySlice time 0 2 ++ ":" ++ pySlice time 2 4 ++ ":" ++
        pySlice time 4 6 ++ " AM")) := by
  refine ⟨rfl, fun hpm => ?_, fun ham => ?_⟩
  · rw [formatDICOMTime, if_neg hne, h]
    simp [hpm]
  · rw [formatDICOMTime, if_neg hne, h]
    have : ¬ hh > 12 := by omega
    simp [this]

/-- Witness for C9 at the afternoon time `"134530"` and the midnight time
`"001122"`. -/
theorem formatDICOMTime_spec_witness :
    formatDICOMTime "134530" =
      some (toString (13 - 12) ++ ":" ++ pySlice "134530" 2 4 ++ ":" ++
        pySlice "134530" 4 6 ++ " PM") ∧
    formatDICOMTime "001122" =
      some (pySlice "001122" 0 2 ++ ":" ++ pySlice "001122" 2 4 ++ ":" ++
        pySlice "001122" 4 6 ++ " AM") :=
  ⟨(formatDICOMTime_spec "134530" 13 (by decide) (by decide)).2.1 (by decide),
   (formatDICOMTime_spec "001122" 0 (by decide) (by decide)).2.2 (by decide)⟩

/-! ## C1: toggling the enabled checkbox off -/

/-- An environment for a single slice view with no volumes loaded. -/
def c1Env : Env :=
  { dbOpen := false, db := fun _ _ => "", compositePresent := true,
    sliceNodePresent := true, sliceViewPresent := true,
    backgroundVolume := none, foregroundVolume := none, labelVolume := none,
    foregroundOpacityPct := 0, labelOpacityPct := 0, slabEnabled := false,
    slabThicknessStr := "", slabTypeStr := "", lengthUnitSuffix := "",
    viewHeight := 300, viewWidth := 400 }

/-- A state with annotations enabled, as before the user unchecks the box. -/
def c1State : AnnState :=
  { sliceViewAnnotationsEnabled := true, annotationsDisplayAmount := 0,
    topLeft := true, topRight := false, bottomLeft := true, fontSize := 14,
    maximumTextLength := 35, backgroundDICOMAnnotationsPersistence := false,
    allowForcingTopRightVisibility := true, dicomVolumeNode := false,
    cornerTexts := initialCornerTexts, extractedDICOMValuesCache := [] }

/-- One slice view whose corner-annotation actor currently displays two
non-empty texts. -/
def c1Views : List (List String) := [["B: volume1", "", "PatientX", ""]]

/-- C1 (the code, at the failing input): after
`onSliceViewAnnotationsCheckBox` with the checkbox unchecked,
`updateSliceViewFromGUI` returns at its disabled early-return, so the
previously displayed corner texts survive unchanged — none of the four
corner positions is set to the empty string, although
`updateCornerAnnotation` has a clearing branch for the disabled case and
the comment in `updateViewAnnotations` says the annotations get hidden. -/
theorem toggleOff_keeps_corner_texts :
    onSliceViewAnnotationsCheckBox c1Env false c1State c1Views =
      some ({ c1State with sliceViewAnnotationsEnabled := false },
        [["B: volume1", "", "PatientX", ""]]) := rfl

/-! ## C2: fitText -/

/-- C2 counterexample: at `textSize = 7` (positive) and an 8-character
text, `postSize = 7 // 2 - 3 = 0`, so `text[-postSize:]` is the whole
text and the result has length 14 > 7: the claimed length bound fails. -/
theorem fitText_counterexample :
    (0 : Int) < 7 ∧ ("abcdefgh" : String).length = 8 ∧
    fitText "abcdefgh" 7 = "abc...abcdefgh" ∧
    (fitText "abcdefgh" 7).length = 14 ∧
    7 < (fitText "abcdefgh" 7).length := by decide

/-- C2 amended: for `textSize ≥ 8`, `fitText` returns the text unchanged
when it is no longer than `textSize`, and otherwise returns the first
`textSize // 2` characters, `"..."`, and the last `textSize // 2 - 3`
characters, a string of length at most `textSize`. -/
theorem fitText_amended (text : String) (n : Nat) (h : 8 ≤ n) :
    (text.length ≤ n → fitText text (n : Int) = text) ∧
    (n < text.length →
      fitText text (n : Int) =
        (⟨text.data.take (n / 2)⟩ : String) ++ "..." ++
          ⟨text.data.drop (text.data.length - (n / 2 - 3))⟩ ∧
      (fitText text (n : Int)).length ≤ n) := by
  constructor
  · intro hle
    rw [fitText, if_neg (by exact_mod_cast Nat.not_lt.mpr hle)]
  · intro hgt
    have hcond : ((n : Int) < (text.length : Int)) := by exact_mod_cast hgt
    have hpre : Int.tdiv (n : Int) 2 = ((n / 2 : Nat) : Int) := rfl
    have key : fitText text (n : Int) =
        (⟨text.data.take (n / 2)⟩ : String) ++ "..." ++
          ⟨text.data.drop (text.data.length - (n / 2 - 3))⟩ := by
      rw [fitText, if_pos hcond]
      simp only [pyTakeTo, pyDropFrom]
      rw [hpre,
        if_pos (by omega : (0 : Int) ≤ ((n / 2 : Nat) : Int)),
        if_neg (by omega : ¬ (0 : Int) ≤ -(((n / 2 : Nat) : Int) - 3)),
        (by omega : (((n / 2 : Nat) : Int)).toNat = n / 2),
        (by omega : (-(-(((n / 2 : Nat) : Int) - 3))).toNat = n / 2 - 3)]
    refine ⟨key, ?_⟩
    rw [key, strLength_append, strLength_append]
    have e1 : ((⟨text.data.take (n / 2)⟩ : String)).length =
        (text.data.take (n / 2)).length := rfl
    have e2 : ("..." : String).length = 3 := rfl
    have e3 : ((⟨text.data.drop (text.data.length - (n / 2 - 3))⟩ :
        String)).length =
        (text.data.drop (text.data.length - (n / 2 - 3))).length := rfl
    have e4 : text.data.length = text.length := rfl
    rw [e1, e2, e3, List.length_take, List.length_drop, e4]
    omega

/-- Witness for C2 at `textSize = 8` with a short and a long text. -/
theorem fitText_amended_witness :
    fitText "abc" ((8 : Nat) : Int) = "abc" ∧
    fitText "abcdefghijkl" ((8 : Nat) : Int) =
      (⟨("abcdefghijkl" : String).data.take (8 / 2)⟩ : String) ++ "..." ++
        ⟨("abcdefghijkl" : String).data.drop
          (("abcdefghijkl" : String).data.length - (8 / 2 - 3))⟩ ∧
    (fitText "abcdefghijkl" ((8 : Nat) : Int)).length ≤ 8 :=
  ⟨(fitText_amended "abc" 8 (by decide)).1 (by decide),
   ((fitText_amended "abcdefghijkl" 8 (by decide)).2 (by decide)).1,
   ((fitText_amended "abcdefghijkl" 8 (by decide)).2 (by decide)).2⟩

/-! ## C4: the extracted-DICOM-values cache -/

theorem extractDICOMValues_miss_cache (db : String → String → String)
    (cache : DicomCache) (uid : String) (hc : cache.lookup uid = none) :
    (extractDICOMValues db cache uid).cache =
      if (cache ++ [(uid, freshDICOMDict db uid)]).length >
          extractedDICOMValuesCacheSize then
        (cache ++ [(uid, freshDICOMDict db uid)]).drop 1
      else cache ++ [(uid, freshDICOMDict db uid)] := by
  rw [extractDICOMValues, hc]

/-- A database stub: every tag of every instance reads as `""`. -/
def fifoDb : String → String → String := fun _ _ => ""

/-- One `extractDICOMValues` call, keeping only the cache. -/
def lruStep (c : DicomCache) (uid : String) : DicomCache :=
  (extractDICOMValues fifoDb c uid).cache

/-- Fill the cache with `u01 .. u12`, then access `u01` again (a cache
hit, making `u01` the most recently used entry). -/
def lruTrace : DicomCache :=
  ["u01", "u02", "u03", "u04", "u05", "u06", "u07", "u08", "u09", "u10",
   "u11", "u12", "u01"].foldl lruStep []

/-- C4 counterexample: after filling the cache and then using `u01` again
(the last access of the trace, so `u01` is the most recently used entry
and `u02` the least recently used), inserting `u13` into the full cache
evicts `u01`, not the least-recently-used `u02`: a cache hit does not
refresh recency, so the eviction is insertion-order FIFO, not LRU. -/
theorem extractCache_not_lru :
    lruTrace.length = extractedDICOMValuesCacheSize ∧
    (lruTrace.map Prod.fst).head? = some "u01" ∧
    (lruTrace.lookup "u01").isSome = true ∧
    (extractDICOMValues fifoDb lruTrace "u13").cache.lookup "u01" = none ∧
    ((extractDICOMValues fifoDb lruTrace "u13").cache.lookup "u02").isSome =
      true := by decide

/-- C4 amended: every call on a cache of at most
`extractedDICOMValuesCacheSize` (12) entries leaves at most 12 entries,
and inserting on a miss into a full cache evicts the first — oldest
inserted — entry (FIFO in insertion order; a hit does not refresh
recency, so the evicted entry need not be the least recently used). -/
theorem extractDICOMValues_bounded_fifo (db : String → String → String)
    (cache : DicomCache) (uid : String)
    (h : cache.length ≤ extractedDICOMValuesCacheSize) :
    (extractDICOMValues db cache uid).cache.length ≤
      extractedDICOMValuesCacheSize ∧
    (cache.lookup uid = none → cache.length = extractedDICOMValuesCacheSize →
      (extractDICOMValues db cache uid).cache =
        cache.drop 1 ++ [(uid, freshDICOMDict db uid)]) := by
  have hsz : extractedDICOMValuesCacheSize = 12 := rfl
  constructor
  · cases hc : cache.lookup uid with
    | some p =>
        have : (extractDICOMValues db cache uid).cache = cache := by
          rw [extractDICOMValues, hc]
        rw [this]
        exact h
    | none =>
        rw [extractDICOMValues_miss_cache db cache uid hc]
        by_cases hgt : (cache ++ [(uid, freshDICOMDict db uid)]).length >
            extractedDICOMValuesCacheSize
        · rw [if_pos hgt, List.length_drop]
          rw [List.length_append] at hgt ⊢
          simp only [List.length_cons, List.length_nil] at hgt ⊢
          omega
        · rw [if_neg hgt]
          rw [List.length_append] at hgt
          simp only [List.length_cons, List.length_nil] at hgt
          rw [List.length_append]
          simp only [List.length_cons, List.length_nil]
          omega
  · intro hnone hfull
    rw [hsz] at hfull
    have hgt : (cache ++ [(uid, freshDICOMDict db uid)]).length >
        extractedDICOMValuesCacheSize := by
      rw [List.length_append]
      simp only [List.length_cons, List.length_nil]
      rw [hsz]
      omega
    rw [extractDICOMValues_miss_cache db cache uid hnone, if_pos hgt]
    exact List.drop_append_of_le_length (by omega)

/-- A full 12-entry cache not containing `u13`. -/
def fifoCacheW : DicomCache :=
  [("u01", []), ("u02", []), ("u03", []), ("u04", []), ("u05", []),
   ("u06", []), ("u07", []), ("u08", []), ("u09", []), ("u10", []),
   ("u11", []), ("u12", [])]

/-- Witness for C4: inserting `u13` into the full cache keeps 12 entries
and evicts the first entry `u01`. -/
theorem extractDICOMValues_bounded_fifo_witness :
    (extractDICOMValues fifoDb fifoCacheW "u13").cache.length ≤
      extractedDICOMValuesCacheSize ∧
    (extractDICOMValues fifoDb fifoCacheW "u13").cache =
      fifoCacheW.drop 1 ++ [("u13", freshDICOMDict fifoDb "u13")] :=
  ⟨(extractDICOMValues_bounded_fifo fifoDb fifoCacheW "u13" (by decide)).1,
   (extractDICOMValues_bounded_fifo fifoDb fifoCacheW "u13" (by decide)).2
     (by decide) (by decide)⟩

/-! ## C10: resetTexts and makeAnnotationText -/

/-- The shape of the corner-text dicts: their keys and categories, without
the text values. -/
def cornerShape (cts : List Corner) : List (List (String × Category)) :=
  cts.map fun d => d.map fun p => (p.1, p.2.category)

theorem resetTexts_eq_of_shape {cts cts' : List Corner}
    (h : cornerShape cts = cornerShape cts') :
    resetTexts cts = resetTexts cts' := by
  have e : ∀ l : List Corner,
      resetTexts l = (cornerShape l).map fun d =>
        d.map fun p => (p.1, ⟨"", p.2⟩) := by
    intro l
    simp only [resetTexts, cornerShape, List.map_map, Function.comp_def]
  rw [e, e, h]

/-- C10: `resetTexts` empties the text of every entry of every corner dict
while preserving the keys and categories, and `makeAnnotationText` resets
first, so its result is the same for any two corner-text states that agree
on keys and categories — no text computed for a previous event survives
into the next recomputation. -/
theorem resetTexts_spec :
    (∀ cts : List Corner,
      cornerShape (resetTexts cts) = cornerShape cts ∧
      (resetTexts cts).all (fun d => d.all fun p => p.2.text == "") = true) ∧
    (∀ (env : Env) (st : AnnState) (cts cts' : List Corner),
      cornerShape cts = cornerShape cts' →
      makeAnnotationText env { st with cornerTexts := cts } =
        makeAnnotationText env { st with cornerTexts := cts' }) := by
  constructor
  · intro cts
    constructor
    · simp only [cornerShape, resetTexts, List.map_map, Function.comp_def]
    · simp [resetTexts, List.all_map, Function.comp]
  · intro env st cts cts' h
    show makeAnnotationTextCore env { st with cornerTexts := resetTexts cts } =
      makeAnnotationTextCore env { st with cornerTexts := resetTexts cts' }
    rw [resetTexts_eq_of_shape h]

/-- An environment for the C10 witness. -/
def c10Env : Env :=
  { dbOpen := false, db := fun _ _ => "", compositePresent := true,
    sliceNodePresent := true, sliceViewPresent := true,
    backgroundVolume := none, foregroundVolume := none, labelVolume := none,
    foregroundOpacityPct := 0, labelOpacityPct := 0, slabEnabled := false,
    slabThicknessStr := "", slabTypeStr := "", lengthUnitSuffix := "",
    viewHeight := 300, viewWidth := 400 }

/-- A state for the C10 witness. -/
def c10State : AnnState :=
  { sliceViewAnnotationsEnabled := true, annotationsDisplayAmount := 0,
    topLeft := true, topRight := false, bottomLeft := true, fontSize := 14,
    maximumTextLength := 35, backgroundDICOMAnnotationsPersistence := false,
    allowForcingTopRightVisibility := true, dicomVolumeNode := false,
    cornerTexts := initialCornerTexts, extractedDICOMValuesCache := [] }

/-- Two corner-text states that differ only in their text values. -/
def c10A : List Corner := [[("1-Label", ⟨"L: old", Category.A⟩)], [], [], []]

/-- The same shape as `c10A` with empty texts. -/
def c10B : List Corner := [[("1-Label", ⟨"", Category.A⟩)], [], [], []]

/-- Witness for C10: `makeAnnotationText` cannot tell `c10A` from `c10B`. -/
theorem resetTexts_spec_witness :
    makeAnnotationText c10Env { c10State with cornerTexts := c10A } =
      makeAnnotationText c10Env { c10State with cornerTexts := c10B } :=
  resetTexts_spec.2 c10Env c10State c10A c10B (by decide)

end Slicer
